import Mathlib

/-!
Shallow embedding of the 6502-core of the `nes` emulator
(`src/cpu/mod.rs`, `src/cpu/instruction.rs`, `src/cpu/register.rs`).

Machine integers are modelled as `Nat`.  Rust `wrapping_add`/`wrapping_sub`
become explicit `% 0x100` / `% 0x10000`; the unchecked `+` / `+=` of the
source (which panics on overflow under Rust's checked-arithmetic profile,
the profile `cargo test` uses) is modelled as a checked addition that
faults (returns `none`) when the 16-bit range is exceeded.  Every Rust
`panic!` (unmapped bus access, missing ROM, out-of-bounds vector index,
unimplemented opcode, `i8::abs` overflow on `-128`) is modelled as `none`.
ROM is `Option (List Nat)` (the `Option<Rc<Vec<u8>>>` of the source), RAM
is `List Nat`; a `Vec` index out of bounds is a panic, hence `List.get?`.
-/

/-- Status register P, mirroring `register.rs` `Status`. -/
structure Status where
  negative : Bool
  overflow : Bool
  reserved : Bool
  break_mode : Bool
  decimal_mode : Bool
  irq_prohibited : Bool
  zero : Bool
  carry : Bool
deriving DecidableEq, Repr

/-- `Status::default()`: all flags clear except the always-set reserved flag. -/
def Status.power_on : Status :=
  { negative := false, overflow := false, reserved := true, break_mode := false,
    decimal_mode := false, irq_prohibited := false, zero := false, carry := false }

/-- Register file, mirroring `register.rs` `Registers`.  `accumulator`,
`index_x`, `index_y` are `u8` in the source, `stack_pointer` and
`program_counter` are `u16`; all are `Nat` here with wrapping explicit. -/
structure Registers where
  accumulator : Nat
  index_x : Nat
  index_y : Nat
  stack_pointer : Nat
  status : Status
  program_counter : Nat
deriving DecidableEq, Repr

/-- `Registers::default()`: numeric registers zero, status at power-on. -/
def Registers.power_on : Registers :=
  { accumulator := 0, index_x := 0, index_y := 0, stack_pointer := 0,
    status := Status.power_on, program_counter := 0 }

/-- Operation kinds actually present (uncommented) in `instruction.rs` `Kind`. -/
inductive Kind where
  | LDA | LDX | LDY | STA | TXS | DEY | INX | JMP | BNE | SEI
deriving DecidableEq, Repr

/-- Addressing modes actually present in `instruction.rs` `Addressing`. -/
inductive Addressing where
  | Implied | Immediate | Relative | Absolute | AbsoluteX
deriving DecidableEq, Repr

/-- `instruction.rs` `Instruction`: a kind paired with an addressing mode. -/
structure Instruction where
  kind : Kind
  addressing : Addressing
deriving DecidableEq, Repr

/-- `Instruction::from_opcode`.  The Rust `match` on the opcode byte is a
chain of literal comparisons; the `_ => panic!("Instruction is not
implemented! ...")` arm is `none`. -/
def Instruction.from_opcode (opcode : Nat) : Option Instruction :=
  if opcode = 0x4c then some ⟨Kind.JMP, Addressing.Absolute⟩
  else if opcode = 0x78 then some ⟨Kind.SEI, Addressing.Implied⟩
  else if opcode = 0x88 then some ⟨Kind.DEY, Addressing.Implied⟩
  else if opcode = 0x8d then some ⟨Kind.STA, Addressing.Absolute⟩
  else if opcode = 0x9a then some ⟨Kind.TXS, Addressing.Implied⟩
  else if opcode = 0xa0 then some ⟨Kind.LDY, Addressing.Immediate⟩
  else if opcode = 0xa2 then some ⟨Kind.LDX, Addressing.Immediate⟩
  else if opcode = 0xa9 then some ⟨Kind.LDA, Addressing.Immediate⟩
  else if opcode = 0xbd then some ⟨Kind.LDA, Addressing.AbsoluteX⟩
  else if opcode = 0xd0 then some ⟨Kind.BNE, Addressing.Relative⟩
  else if opcode = 0xe8 then some ⟨Kind.INX, Addressing.Implied⟩
  else none

/-- `Instruction::clock`: base cost per kind plus addressing surcharge. -/
def Instruction.clock (i : Instruction) : Nat :=
  (match i.kind with
   | Kind.JMP => 1
   | Kind.SEI => 2
   | Kind.DEY => 2
   | Kind.STA => 2
   | Kind.TXS => 2
   | Kind.LDY => 2
   | Kind.LDX => 2
   | Kind.LDA => 2
   | Kind.BNE => 2
   | Kind.INX => 2) +
  (match i.addressing with
   | Addressing.Implied => 0
   | Addressing.Immediate => 0
   | Addressing.Relative => 0
   | Addressing.Absolute => 2
   | Addressing.AbsoluteX => 2)

/-- `Instruction::affects_status_negative`. -/
def Instruction.affects_status_negative (i : Instruction) : Bool :=
  match i.kind with
  | Kind.DEY | Kind.LDY | Kind.LDX | Kind.LDA | Kind.TXS | Kind.INX => true
  | _ => false

/-- `Instruction::affects_status_zero`. -/
def Instruction.affects_status_zero (i : Instruction) : Bool :=
  match i.kind with
  | Kind.DEY | Kind.LDY | Kind.LDX | Kind.LDA | Kind.TXS | Kind.INX => true
  | _ => false

/-- `mod.rs` `Operand`. -/
inductive Operand where
  | address : Nat → Bool → Operand
  | value : Nat → Operand
  | none : Operand
deriving DecidableEq, Repr

/-- `mod.rs` `Cpu`: register file, optional ROM bank, RAM. -/
structure Cpu where
  registers : Registers
  rom : Option (List Nat)
  ram : List Nat
deriving DecidableEq, Repr

/-- `Cpu::new`: power-on registers, no ROM, the given RAM. -/
def Cpu.new (ram : List Nat) : Cpu :=
  { registers := Registers.power_on, rom := Option.none, ram := ram }

/-- `Cpu::read`: 0x0000-0x07ff indexes RAM, 0x8000-0xffff indexes ROM at
`addr - 0x8000` (panicking when no ROM is set or the index is out of
bounds), every other address panics (`Read not implemented!`). -/
def Cpu.read (c : Cpu) (addr : Nat) : Option Nat :=
  if addr ≤ 0x07ff then c.ram.get? addr
  else if 0x8000 ≤ addr ∧ addr ≤ 0xffff then
    match c.rom with
    | Option.some rom => rom.get? (addr - 0x8000)
    | Option.none => Option.none
  else Option.none

/-- `Cpu::write`: 0x0000-0x07ff stores into RAM (a `Vec` index-assign,
panicking out of bounds), 0x2000-0x2007 is the no-op I/O stub (a
`println!` only), every other address panics (`Write not implemented!`). -/
def Cpu.write (c : Cpu) (addr value : Nat) : Option Cpu :=
  if addr ≤ 0x07ff then
    if addr < c.ram.length then Option.some { c with ram := c.ram.set addr value }
    else Option.none
  else if 0x2000 ≤ addr ∧ addr ≤ 0x2007 then Option.some c
  else Option.none

/-- `Cpu::read_word`: little-endian word, low byte at `addr`, high byte at
`addr + 1`.  The `addr + 1` is an unchecked u16 addition: at 0xffff it
overflows (checked-profile panic), modelled as `none`. -/
def Cpu.read_word (c : Cpu) (addr : Nat) : Option Nat :=
  match c.read addr with
  | Option.some lower_byte =>
    if addr + 1 ≤ 0xffff then
      match c.read (addr + 1) with
      | Option.some upper_byte => Option.some (lower_byte ||| (upper_byte <<< 8))
      | Option.none => Option.none
    else Option.none
  | Option.none => Option.none

/-- `Cpu::fetch`: read the byte at the program counter, then `pc += 1` —
an unchecked u16 addition, a checked-profile panic at 0xffff. -/
def Cpu.fetch (c : Cpu) : Option (Nat × Cpu) :=
  match c.read c.registers.program_counter with
  | Option.some value =>
    if c.registers.program_counter + 1 ≤ 0xffff then
      Option.some (value,
        { c with registers.program_counter := c.registers.program_counter + 1 })
    else Option.none
  | Option.none => Option.none

/-- `Cpu::fetch_word`: two fetches, `lower + (upper << 8)` (cannot exceed
u16 range when both fetched values are bytes). -/
def Cpu.fetch_word (c : Cpu) : Option (Nat × Cpu) :=
  match c.fetch with
  | Option.some (lower, c1) =>
    match c1.fetch with
    | Option.some (upper, c2) => Option.some (lower + (upper <<< 8), c2)
    | Option.none => Option.none
  | Option.none => Option.none

/-- `Cpu::fetch_operand`.  Relative reinterprets the fetched byte as `i8`:
a byte `< 0x80` is a non-negative offset added with `wrapping_add`; a byte
`> 0x80` stands for the negative offset `byte - 0x100`, and
`offset.abs() = 0x100 - byte` is subtracted with `wrapping_sub`; the byte
0x80 is `i8` value `-128`, whose `abs()` overflows (checked-profile
panic), modelled as `none`.  AbsoluteX adds `index_x` with
`wrapping_add`.  Page crossing compares the high bytes (`>> 8`). -/
def Cpu.fetch_operand (c : Cpu) : Addressing → Option (Operand × Cpu)
  | Addressing.Immediate =>
    match c.fetch with
    | Option.some (v, c1) => Option.some (Operand.value v, c1)
    | Option.none => Option.none
  | Addressing.Relative =>
    match c.fetch with
    | Option.some (offset, c1) =>
      let pc := c1.registers.program_counter
      if offset < 0x80 then
        let addr := (pc + offset) % 0x10000
        Option.some (Operand.address addr (decide (pc >>> 8 ≠ addr >>> 8)), c1)
      else if offset = 0x80 then Option.none
      else
        let addr := (pc + 0x10000 - (0x100 - offset)) % 0x10000
        Option.some (Operand.address addr (decide (pc >>> 8 ≠ addr >>> 8)), c1)
    | Option.none => Option.none
  | Addressing.Absolute =>
    match c.fetch_word with
    | Option.some (w, c1) => Option.some (Operand.address w false, c1)
    | Option.none => Option.none
  | Addressing.AbsoluteX =>
    match c.fetch_word with
    | Option.some (orig, c1) =>
      let x := c1.registers.index_x
      let addr := (orig + x) % 0x10000
      Option.some (Operand.address addr (decide (orig >>> 8 ≠ addr >>> 8)), c1)
    | Option.none => Option.none
  | Addressing.Implied => Option.some (Operand.none, c)

/-- `Cpu::run`: fetch, decode, dispatch on the kind, then derive the
negative/zero flags from the optional result byte.  Each arm mirrors the
corresponding `match` arm of the source, including the silently-ignoring
`_ => {}` sub-arms and the per-arm cycle surcharges. -/
def Cpu.run (c : Cpu) : Option (Cpu × Nat) :=
  match c.fetch with
  | Option.none => Option.none
  | Option.some (opcode, c0) =>
    match Instruction.from_opcode opcode with
    | Option.none => Option.none
    | Option.some instruction =>
      let clock_count := instruction.clock
      let step : Option (Cpu × Nat × Option Nat) :=
        match instruction.kind with
        | Kind.JMP =>
          match c0.fetch_operand instruction.addressing with
          | Option.some (Operand.address addr _, c1) =>
            Option.some ({ c1 with registers.program_counter := addr },
              clock_count, Option.none)
          | Option.some (_, c1) => Option.some (c1, clock_count, Option.none)
          | Option.none => Option.none
        | Kind.SEI =>
          Option.some ({ c0 with registers.status.irq_prohibited := true },
            clock_count, Option.none)
        | Kind.DEY =>
          let y := (c0.registers.index_y + 0x100 - 1) % 0x100
          Option.some ({ c0 with registers.index_y := y }, clock_count, Option.some y)
        | Kind.STA =>
          match c0.fetch_operand instruction.addressing with
          | Option.some (Operand.address addr page_crossed, c1) =>
            match c1.write addr c1.registers.accumulator with
            | Option.some c2 =>
              Option.some (c2,
                if page_crossed then clock_count + 1 else clock_count, Option.none)
            | Option.none => Option.none
          | Option.some (_, c1) => Option.some (c1, clock_count, Option.none)
          | Option.none => Option.none
        | Kind.TXS =>
          Option.some ({ c0 with registers.stack_pointer := c0.registers.index_x },
            clock_count, Option.some c0.registers.index_x)
        | Kind.LDY =>
          match c0.fetch_operand instruction.addressing with
          | Option.some (Operand.value v, c1) =>
            Option.some ({ c1 with registers.index_y := v },
              clock_count, Option.some v)
          | Option.some (Operand.address addr page_crossed, c1) =>
            match c1.read addr with
            | Option.some v =>
              Option.some ({ c1 with registers.index_y := v },
                if page_crossed then clock_count + 1 else clock_count, Option.some v)
            | Option.none => Option.none
          | Option.some (Operand.none, c1) =>
            Option.some (c1, clock_count, Option.some c1.registers.index_y)
          | Option.none => Option.none
        | Kind.LDX =>
          match c0.fetch_operand instruction.addressing with
          | Option.some (Operand.value v, c1) =>
            Option.some ({ c1 with registers.index_x := v },
              clock_count, Option.some v)
          | Option.some (Operand.address addr page_crossed, c1) =>
            match c1.read addr with
            | Option.some v =>
              Option.some ({ c1 with registers.index_x := v },
                if page_crossed then clock_count + 1 else clock_count, Option.some v)
            | Option.none => Option.none
          | Option.some (Operand.none, c1) =>
            Option.some (c1, clock_count, Option.some c1.registers.index_x)
          | Option.none => Option.none
        | Kind.LDA =>
          match c0.fetch_operand instruction.addressing with
          | Option.some (Operand.value v, c1) =>
            Option.some ({ c1 with registers.accumulator := v },
              clock_count, Option.some v)
          | Option.some (Operand.address addr page_crossed, c1) =>
            match c1.read addr with
            | Option.some v =>
              Option.some ({ c1 with registers.accumulator := v },
                if page_crossed then clock_count + 1 else clock_count, Option.some v)
            | Option.none => Option.none
          | Option.some (Operand.none, c1) =>
            Option.some (c1, clock_count, Option.some c1.registers.accumulator)
          | Option.none => Option.none
        | Kind.BNE =>
          match c0.fetch_operand instruction.addressing with
          | Option.some (Operand.address addr page_crossed, c1) =>
            if c1.registers.status.zero = false then
              Option.some ({ c1 with registers.program_counter := addr },
                clock_count + (if page_crossed then 2 else 1), Option.none)
            else Option.some (c1, clock_count, Option.none)
          | Option.some (_, c1) => Option.some (c1, clock_count, Option.none)
          | Option.none => Option.none
        | Kind.INX =>
          let x := (c0.registers.index_x + 1) % 0x100
          Option.some ({ c0 with registers.index_x := x }, clock_count, Option.some x)
      match step with
      | Option.none => Option.none
      | Option.some (c1, clock_total, calc_result) =>
        let c2 :=
          match calc_result with
          | Option.some result =>
            let ca :=
              if instruction.affects_status_negative then
                { c1 with registers.status.negative := (result >>> 7 == 1) }
              else c1
            if instruction.affects_status_zero then
              { ca with registers.status.zero := (result == 0) }
            else ca
          | Option.none => c1
        Option.some (c2, clock_total)

/-- `Cpu::reset`: registers back to power-on defaults, then the program
counter is loaded from the reset vector at 0xfffc/0xfffd. -/
def Cpu.reset (c : Cpu) : Option Cpu :=
  let c0 : Cpu := { c with registers := Registers.power_on }
  match c0.read_word 0xfffc with
  | Option.some pc =>
    Option.some { c0 with registers.program_counter := pc }
  | Option.none => Option.none

/-- Relative branch-target: the `Addressing::Relative` arm of
`fetch_operand` as a function of the post-operand program counter and the
raw offset byte (byte < 0x80 nonnegative offset, byte > 0x80 negative). -/
def relTarget (pc b : Nat) : Nat :=
  if b < 0x80 then (pc + b) % 0x10000
  else (pc + 0x10000 - (0x100 - b)) % 0x10000

def opcodeTable : List Nat := [0x4c, 0x78, 0x88, 0x8d, 0x9a, 0xa0, 0xa2, 0xa9, 0xbd, 0xd0, 0xe8]

def nopProbe (op : Nat) : Cpu :=
  { registers :=
      { accumulator := 5, index_x := 5, index_y := 5, stack_pointer := 9,
        status := Status.power_on, program_counter := 0 },
    rom := Option.none,
    ram := [op, 0, 0, 0, 0, 0, 0, 0] }

def c9NoNopCheck : Bool :=
  (List.range 256).all fun op =>
    match Instruction.from_opcode op with
    | Option.none => true
    | Option.some _ =>
      match Cpu.run (nopProbe op) with
      | Option.some (c1, _) =>
        let r := (nopProbe op).registers
        decide (c1.registers ≠ { r with program_counter := r.program_counter + 1 })
      | Option.none => false

def c9KindsCheck : Bool :=
  (List.range 256).all fun op =>
    match Instruction.from_opcode op with
    | Option.none => true
    | Option.some i =>
      decide (i.kind = Kind.LDA ∨ i.kind = Kind.LDX ∨ i.kind = Kind.LDY ∨ i.kind = Kind.STA ∨
        i.kind = Kind.TXS ∨ i.kind = Kind.DEY ∨ i.kind = Kind.INX ∨ i.kind = Kind.JMP ∨
        i.kind = Kind.BNE ∨ i.kind = Kind.SEI)

def inxWrapProbe : Cpu :=
  { registers := { Registers.power_on with program_counter := 0x8000, index_x := 0xff },
    rom := Option.some [0xe8], ram := [] }

def deyWrapProbe : Cpu :=
  { registers := { Registers.power_on with program_counter := 0x8000, index_y := 0x00 },
    rom := Option.some [0x88], ram := [] }

def pageTopProbe : Cpu :=
  { registers := { Registers.power_on with program_counter := 0xffff },
    rom := Option.some (List.replicate 0x8000 0), ram := [] }

def busProbe : Cpu :=
  { registers := Registers.power_on, rom := Option.some [], ram := [] }

def bneProbe : Cpu :=
  { registers := Registers.power_on, rom := Option.none, ram := [0xd0, 0x05] }

def ldaProbe : Cpu :=
  { registers := Registers.power_on, rom := Option.none, ram := [0xa9, 0x80] }

def ldaProbeAfter : Cpu :=
  { ldaProbe with registers.accumulator := 0x80, registers.program_counter := 2, registers.status.negative := true, registers.status.zero := false }

def resetProbe : Cpu :=
  { registers := Registers.power_on, rom := Option.some (List.replicate 0x7ffe 0), ram := [] }

def c3NoCrossProbe : Cpu :=
  { registers := { Registers.power_on with program_counter := 0x8000, index_x := 0x56 },
    rom := Option.some [0xbd, 0x00, 0x01], ram := (List.replicate 0x157 0).set 0x156 0xff }

def c3CrossProbe : Cpu :=
  { registers := { Registers.power_on with program_counter := 0x8000, index_x := 0x56 },
    rom := Option.some [0xbd, 0xff, 0x01], ram := (List.replicate 0x256 0).set 0x255 0x45 }

set_option maxRecDepth 8000

theorem replicate_get_some (n i a : Nat) (h : i < n) :
    (List.replicate n a).get? i = Option.some a := by
  induction n generalizing i with
  | zero => omega
  | succ m ih =>
    cases i with
    | zero => rfl
    | succ j => simpa [List.replicate] using ih j (by omega)

theorem fetch_inv (c : Cpu) (p : Nat × Cpu) (h : c.fetch = Option.some p) :
    ∃ v, c.read c.registers.program_counter = Option.some v ∧
      c.registers.program_counter + 1 ≤ 0xffff ∧
      p = (v, { c with registers.program_counter := c.registers.program_counter + 1 }) := by
  unfold Cpu.fetch at h
  cases hr : c.read c.registers.program_counter with
  | none => rw [hr] at h; exact absurd h (by simp)
  | some v =>
    rw [hr] at h
    dsimp only at h
    by_cases hc : c.registers.program_counter + 1 ≤ 0xffff
    · rw [if_pos hc] at h
      exact ⟨v, rfl, hc, (Option.some.inj h).symm⟩
    · rw [if_neg hc] at h; exact absurd h (by simp)

theorem fetch_eq (c : Cpu) (v : Nat)
    (h : c.read c.registers.program_counter = Option.some v)
    (hpc : c.registers.program_counter + 1 ≤ 0xffff) :
    c.fetch = Option.some (v,
      { c with registers.program_counter := c.registers.program_counter + 1 }) := by
  unfold Cpu.fetch
  rw [h]
  exact if_pos hpc

theorem run_fetch_some (c : Cpu) (q : Cpu × Nat) (h : c.run = Option.some q) :
    ∃ p, c.fetch = Option.some p := by
  unfold Cpu.run at h
  cases hf : c.fetch with
  | none => rw [hf] at h; exact absurd h (by simp)
  | some p => exact ⟨p, rfl⟩

theorem fetch_word_inv (c : Cpu) (p : Nat × Cpu) (h : c.fetch_word = Option.some p) :
    ∃ lo hi, c.read c.registers.program_counter = Option.some lo ∧
      c.read (c.registers.program_counter + 1) = Option.some hi ∧
      c.registers.program_counter + 2 ≤ 0xffff ∧
      p = (lo + (hi <<< 8),
        { c with registers.program_counter := c.registers.program_counter + 2 }) := by
  unfold Cpu.fetch_word at h
  cases hf : c.fetch with
  | none => rw [hf] at h; exact absurd h (by simp)
  | some q =>
    obtain ⟨lo, hr1, hpc1, hq⟩ := fetch_inv c q hf
    rw [hf] at h
    subst hq
    dsimp only at h
    cases hf2 : Cpu.fetch
        { c with registers.program_counter := c.registers.program_counter + 1 } with
    | none => rw [hf2] at h; exact absurd h (by simp)
    | some q2 =>
      obtain ⟨hi, hr2, hpc2, hq2⟩ := fetch_inv _ q2 hf2
      dsimp only at hr2 hpc2
      rw [hf2] at h
      subst hq2
      dsimp only at h
      refine ⟨lo, hi, hr1, hr2, by omega, ?_⟩
      injection h with h'
      exact h'.symm

theorem fetch_operand_imm_inv (c c1 : Cpu) (op : Operand)
    (h : c.fetch_operand Addressing.Immediate = Option.some (op, c1)) :
    ∃ v, c.read c.registers.program_counter = Option.some v ∧
      c.registers.program_counter + 1 ≤ 0xffff ∧
      op = Operand.value v ∧
      c1 = { c with registers.program_counter := c.registers.program_counter + 1 } := by
  unfold Cpu.fetch_operand at h
  cases hf : c.fetch with
  | none => rw [hf] at h; exact absurd h (by simp)
  | some q =>
    obtain ⟨v, hr, hpc, hq⟩ := fetch_inv c q hf
    rw [hf] at h
    subst hq
    dsimp only at h
    injection h with h'
    injection h' with h1 h2
    exact ⟨v, hr, hpc, h1.symm, h2.symm⟩

theorem fetch_operand_abs_inv (c c1 : Cpu) (op : Operand)
    (h : c.fetch_operand Addressing.Absolute = Option.some (op, c1)) :
    ∃ lo hi, c.read c.registers.program_counter = Option.some lo ∧
      c.read (c.registers.program_counter + 1) = Option.some hi ∧
      c.registers.program_counter + 2 ≤ 0xffff ∧
      op = Operand.address (lo + (hi <<< 8)) false ∧
      c1 = { c with registers.program_counter := c.registers.program_counter + 2 } := by
  unfold Cpu.fetch_operand at h
  cases hf : c.fetch_word with
  | none => rw [hf] at h; exact absurd h (by simp)
  | some q =>
    obtain ⟨lo, hi, hr1, hr2, hpc, hq⟩ := fetch_word_inv c q hf
    rw [hf] at h
    subst hq
    dsimp only at h
    injection h with h'
    injection h' with h1 h2
    exact ⟨lo, hi, hr1, hr2, hpc, h1.symm, h2.symm⟩

theorem fetch_operand_absx_inv (c c1 : Cpu) (op : Operand)
    (h : c.fetch_operand Addressing.AbsoluteX = Option.some (op, c1)) :
    ∃ lo hi, c.read c.registers.program_counter = Option.some lo ∧
      c.read (c.registers.program_counter + 1) = Option.some hi ∧
      c.registers.program_counter + 2 ≤ 0xffff ∧
      op = Operand.address ((lo + (hi <<< 8) + c.registers.index_x) % 0x10000)
        (decide ((lo + (hi <<< 8)) >>> 8 ≠ ((lo + (hi <<< 8) + c.registers.index_x) % 0x10000) >>> 8)) ∧
      c1 = { c with registers.program_counter := c.registers.program_counter + 2 } := by
  unfold Cpu.fetch_operand at h
  cases hf : c.fetch_word with
  | none => rw [hf] at h; exact absurd h (by simp)
  | some q =>
    obtain ⟨lo, hi, hr1, hr2, hpc, hq⟩ := fetch_word_inv c q hf
    rw [hf] at h
    subst hq
    dsimp only at h
    injection h with h'
    injection h' with h1 h2
    exact ⟨lo, hi, hr1, hr2, hpc, h1.symm, h2.symm⟩

theorem fetch_operand_rel_inv (c c1 : Cpu) (op : Operand)
    (h : c.fetch_operand Addressing.Relative = Option.some (op, c1)) :
    ∃ b, c.read c.registers.program_counter = Option.some b ∧
      c.registers.program_counter + 1 ≤ 0xffff ∧
      b ≠ 0x80 ∧
      op = Operand.address (relTarget (c.registers.program_counter + 1) b)
        (decide ((c.registers.program_counter + 1) >>> 8 ≠
          (relTarget (c.registers.program_counter + 1) b) >>> 8)) ∧
      c1 = { c with registers.program_counter := c.registers.program_counter + 1 } := by
  unfold Cpu.fetch_operand at h
  cases hf : c.fetch with
  | none => rw [hf] at h; exact absurd h (by simp)
  | some q =>
    obtain ⟨b, hr, hpc, hq⟩ := fetch_inv c q hf
    rw [hf] at h
    subst hq
    dsimp only at h
    by_cases hb1 : b < 0x80
    · rw [if_pos hb1] at h
      injection h with h'
      injection h' with h1 h2
      refine ⟨b, hr, hpc, by omega, ?_, ?_⟩
      · rw [← h1]
        unfold relTarget
        rw [if_pos hb1]
      · exact h2.symm
    · rw [if_neg hb1] at h
      by_cases hb2 : b = 0x80
      · rw [if_pos hb2] at h; exact absurd h (by simp)
      · rw [if_neg hb2] at h
        injection h with h'
        injection h' with h1 h2
        refine ⟨b, hr, hpc, hb2, ?_, ?_⟩
        · rw [← h1]
          unfold relTarget
          rw [if_neg hb1]
        · exact h2.symm

theorem fetch_pc_bound (c : Cpu) (p : Nat × Cpu) (h : c.fetch = Option.some p) :
    c.registers.program_counter + 1 ≤ 0xffff := by
  obtain ⟨v, _, hb, _⟩ := fetch_inv c p h
  exact hb

theorem write_inv (c c2 : Cpu) (a v : Nat) (h : c.write a v = Option.some c2) :
    c2.registers = c.registers ∧ c2.rom = c.rom ∧
    ((a ≤ 0x7ff ∧ a < c.ram.length ∧ c2.ram = c.ram.set a v) ∨
     (0x2000 ≤ a ∧ a ≤ 0x2007 ∧ c2.ram = c.ram)) := by
  unfold Cpu.write at h
  split_ifs at h with h1 h2 h3
  · injection h with h'
    rw [← h']
    exact ⟨rfl, rfl, Or.inl ⟨h1, h2, rfl⟩⟩
  · injection h with h'
    rw [← h']
    exact ⟨rfl, rfl, Or.inr ⟨h3.1, h3.2, rfl⟩⟩

theorem fetch_word_eq (c : Cpu) (lo hi : Nat)
    (h1 : c.read c.registers.program_counter = Option.some lo)
    (h2 : c.read (c.registers.program_counter + 1) = Option.some hi)
    (hpc : c.registers.program_counter + 2 ≤ 0xffff) :
    c.fetch_word = Option.some (lo + (hi <<< 8),
      { c with registers.program_counter := c.registers.program_counter + 2 }) := by
  unfold Cpu.fetch_word
  rw [fetch_eq c lo h1 (by omega)]
  dsimp only
  rw [fetch_eq { c with registers.program_counter := c.registers.program_counter + 1 } hi h2
    (by dsimp only; omega)]

theorem run_inv_sei (c c' : Cpu) (n : Nat)
    (hop : c.read c.registers.program_counter = Option.some 0x78)
    (hrun : c.run = Option.some (c', n)) :
    c.registers.program_counter + 1 ≤ 0xffff ∧
    c' = { c with registers.status.irq_prohibited := true,
                  registers.program_counter := c.registers.program_counter + 1 } ∧
    n = 2 := by
  obtain ⟨p, hf⟩ := run_fetch_some c (c', n) hrun
  have hpc := fetch_pc_bound c p hf
  unfold Cpu.run at hrun
  rw [fetch_eq c 0x78 hop hpc] at hrun
  norm_num [Instruction.from_opcode, Instruction.clock, Instruction.affects_status_negative,
    Instruction.affects_status_zero] at hrun
  obtain ⟨h1, h2⟩ := hrun
  exact ⟨hpc, h1.symm, h2.symm⟩

theorem run_inv_dey (c c' : Cpu) (n : Nat)
    (hop : c.read c.registers.program_counter = Option.some 0x88)
    (hrun : c.run = Option.some (c', n)) :
    c.registers.program_counter + 1 ≤ 0xffff ∧
    c' = { c with
      registers.index_y := (c.registers.index_y + 255) % 256,
      registers.program_counter := c.registers.program_counter + 1,
      registers.status.negative := (((c.registers.index_y + 255) % 256) >>> 7 == 1),
      registers.status.zero := ((c.registers.index_y + 255) % 256 == 0) } ∧
    n = 2 := by
  obtain ⟨p, hf⟩ := run_fetch_some c (c', n) hrun
  have hpc := fetch_pc_bound c p hf
  unfold Cpu.run at hrun
  rw [fetch_eq c 0x88 hop hpc] at hrun
  norm_num [Instruction.from_opcode, Instruction.clock, Instruction.affects_status_negative,
    Instruction.affects_status_zero] at hrun
  obtain ⟨h1, h2⟩ := hrun
  exact ⟨hpc, h1.symm, h2.symm⟩

theorem run_inv_txs (c c' : Cpu) (n : Nat)
    (hop : c.read c.registers.program_counter = Option.some 0x9a)
    (hrun : c.run = Option.some (c', n)) :
    c.registers.program_counter + 1 ≤ 0xffff ∧
    c' = { c with
      registers.stack_pointer := c.registers.index_x,
      registers.program_counter := c.registers.program_counter + 1,
      registers.status.negative := (c.registers.index_x >>> 7 == 1),
      registers.status.zero := (c.registers.index_x == 0) } ∧
    n = 2 := by
  obtain ⟨p, hf⟩ := run_fetch_some c (c', n) hrun
  have hpc := fetch_pc_bound c p hf
  unfold Cpu.run at hrun
  rw [fetch_eq c 0x9a hop hpc] at hrun
  norm_num [Instruction.from_opcode, Instruction.clock, Instruction.affects_status_negative,
    Instruction.affects_status_zero] at hrun
  obtain ⟨h1, h2⟩ := hrun
  exact ⟨hpc, h1.symm, h2.symm⟩

theorem run_inv_inx (c c' : Cpu) (n : Nat)
    (hop : c.read c.registers.program_counter = Option.some 0xe8)
    (hrun : c.run = Option.some (c', n)) :
    c.registers.program_counter + 1 ≤ 0xffff ∧
    c' = { c with
      registers.index_x := (c.registers.index_x + 1) % 0x100,
      registers.program_counter := c.registers.program_counter + 1,
      registers.status.negative := (((c.registers.index_x + 1) % 0x100) >>> 7 == 1),
      registers.status.zero := ((c.registers.index_x + 1) % 0x100 == 0) } ∧
    n = 2 := by
  obtain ⟨p, hf⟩ := run_fetch_some c (c', n) hrun
  have hpc := fetch_pc_bound c p hf
  unfold Cpu.run at hrun
  rw [fetch_eq c 0xe8 hop hpc] at hrun
  norm_num [Instruction.from_opcode, Instruction.clock, Instruction.affects_status_negative,
    Instruction.affects_status_zero] at hrun
  obtain ⟨h1, h2⟩ := hrun
  exact ⟨hpc, h1.symm, h2.symm⟩

theorem run_inv_lda_imm (c c' : Cpu) (n : Nat)
    (hop : c.read c.registers.program_counter = Option.some 0xa9)
    (hrun : c.run = Option.some (c', n)) :
    ∃ v, c.read (c.registers.program_counter + 1) = Option.some v ∧
      c.registers.program_counter + 2 ≤ 0xffff ∧
      c' = { c with
        registers.accumulator := v,
        registers.program_counter := c.registers.program_counter + 2,
        registers.status.negative := (v >>> 7 == 1),
        registers.status.zero := (v == 0) } ∧
      n = 2 := by
  obtain ⟨p, hf⟩ := run_fetch_some c (c', n) hrun
  have hpc := fetch_pc_bound c p hf
  unfold Cpu.run at hrun
  rw [fetch_eq c 0xa9 hop hpc] at hrun
  norm_num [Instruction.from_opcode, Instruction.clock, Instruction.affects_status_negative,
    Instruction.affects_status_zero] at hrun
  cases hq : Cpu.fetch_operand
      { c with registers.program_counter := c.registers.program_counter + 1 }
      Addressing.Immediate with
  | none => rw [hq] at hrun; exact absurd hrun (by simp)
  | some pr =>
    obtain ⟨op, c1⟩ := pr
    obtain ⟨v, hr, hpc2, hov, hc1⟩ := fetch_operand_imm_inv _ _ _ hq
    dsimp only at hr hpc2
    rw [hq] at hrun
    subst hov
    subst hc1
    dsimp only at hrun
    simp only [Option.some.injEq, Prod.mk.injEq] at hrun
    obtain ⟨h1, h2⟩ := hrun
    refine ⟨v, hr, by omega, h1.symm, h2.symm⟩

theorem run_inv_ldx_imm (c c' : Cpu) (n : Nat)
    (hop : c.read c.registers.program_counter = Option.some 0xa2)
    (hrun : c.run = Option.some (c', n)) :
    ∃ v, c.read (c.registers.program_counter + 1) = Option.some v ∧
      c.registers.program_counter + 2 ≤ 0xffff ∧
      c' = { c with
        registers.index_x := v,
        registers.program_counter := c.registers.program_counter + 2,
        registers.status.negative := (v >>> 7 == 1),
        registers.status.zero := (v == 0) } ∧
      n = 2 := by
  obtain ⟨p, hf⟩ := run_fetch_some c (c', n) hrun
  have hpc := fetch_pc_bound c p hf
  unfold Cpu.run at hrun
  rw [fetch_eq c 0xa2 hop hpc] at hrun
  norm_num [Instruction.from_opcode, Instruction.clock, Instruction.affects_status_negative,
    Instruction.affects_status_zero] at hrun
  cases hq : Cpu.fetch_operand
      { c with registers.program_counter := c.registers.program_counter + 1 }
      Addressing.Immediate with
  | none => rw [hq] at hrun; exact absurd hrun (by simp)
  | some pr =>
    obtain ⟨op, c1⟩ := pr
    obtain ⟨v, hr, hpc2, hov, hc1⟩ := fetch_operand_imm_inv _ _ _ hq
    dsimp only at hr hpc2
    rw [hq] at hrun
    subst hov
    subst hc1
    dsimp only at hrun
    simp only [Option.some.injEq, Prod.mk.injEq] at hrun
    obtain ⟨h1, h2⟩ := hrun
    refine ⟨v, hr, by omega, h1.symm, h2.symm⟩

theorem run_inv_ldy_imm (c c' : Cpu) (n : Nat)
    (hop : c.read c.registers.program_counter = Option.some 0xa0)
    (hrun : c.run = Option.some (c', n)) :
    ∃ v, c.read (c.registers.program_counter + 1) = Option.some v ∧
      c.registers.program_counter + 2 ≤ 0xffff ∧
      c' = { c with
        registers.index_y := v,
        registers.program_counter := c.registers.program_counter + 2,
        registers.status.negative := (v >>> 7 == 1),
        registers.status.zero := (v == 0) } ∧
      n = 2 := by
  obtain ⟨p, hf⟩ := run_fetch_some c (c', n) hrun
  have hpc := fetch_pc_bound c p hf
  unfold Cpu.run at hrun
  rw [fetch_eq c 0xa0 hop hpc] at hrun
  norm_num [Instruction.from_opcode, Instruction.clock, Instruction.affects_status_negative,
    Instruction.affects_status_zero] at hrun
  cases hq : Cpu.fetch_operand
      { c with registers.program_counter := c.registers.program_counter + 1 }
      Addressing.Immediate with
  | none => rw [hq] at hrun; exact absurd hrun (by simp)
  | some pr =>
    obtain ⟨op, c1⟩ := pr
    obtain ⟨v, hr, hpc2, hov, hc1⟩ := fetch_operand_imm_inv _ _ _ hq
    dsimp only at hr hpc2
    rw [hq] at hrun
    subst hov
    subst hc1
    dsimp only at hrun
    simp only [Option.some.injEq, Prod.mk.injEq] at hrun
    obtain ⟨h1, h2⟩ := hrun
    refine ⟨v, hr, by omega, h1.symm, h2.symm⟩

theorem run_inv_jmp (c c' : Cpu) (n : Nat)
    (hop : c.read c.registers.program_counter = Option.some 0x4c)
    (hrun : c.run = Option.some (c', n)) :
    ∃ lo hi, c.read (c.registers.program_counter + 1) = Option.some lo ∧
      c.read (c.registers.program_counter + 2) = Option.some hi ∧
      c.registers.program_counter + 3 ≤ 0xffff ∧
      c' = { c with registers.program_counter := lo + (hi <<< 8) } ∧
      n = 3 := by
  obtain ⟨p, hf⟩ := run_fetch_some c (c', n) hrun
  have hpc := fetch_pc_bound c p hf
  unfold Cpu.run at hrun
  rw [fetch_eq c 0x4c hop hpc] at hrun
  norm_num [Instruction.from_opcode, Instruction.clock, Instruction.affects_status_negative,
    Instruction.affects_status_zero] at hrun
  cases hq : Cpu.fetch_operand
      { c with registers.program_counter := c.registers.program_counter + 1 }
      Addressing.Absolute with
  | none => rw [hq] at hrun; exact absurd hrun (by simp)
  | some pr =>
    obtain ⟨op, c1⟩ := pr
    obtain ⟨lo, hi, hr1, hr2, hpc2, hov, hc1⟩ := fetch_operand_abs_inv _ _ _ hq
    dsimp only at hr1 hr2 hpc2
    rw [hq] at hrun
    subst hov
    subst hc1
    dsimp only at hrun
    simp only [Option.some.injEq, Prod.mk.injEq] at hrun
    obtain ⟨h1, h2⟩ := hrun
    exact ⟨lo, hi, hr1, hr2, by omega, h1.symm, h2.symm⟩

theorem run_inv_sta (c c' : Cpu) (n : Nat)
    (hop : c.read c.registers.program_counter = Option.some 0x8d)
    (hrun : c.run = Option.some (c', n)) :
    ∃ lo hi c2, c.read (c.registers.program_counter + 1) = Option.some lo ∧
      c.read (c.registers.program_counter + 2) = Option.some hi ∧
      c.registers.program_counter + 3 ≤ 0xffff ∧
      Cpu.write { c with registers.program_counter := c.registers.program_counter + 3 }
        (lo + (hi <<< 8)) c.registers.accumulator = Option.some c2 ∧
      c' = c2 ∧
      n = 4 := by
  obtain ⟨p, hf⟩ := run_fetch_some c (c', n) hrun
  have hpc := fetch_pc_bound c p hf
  unfold Cpu.run at hrun
  rw [fetch_eq c 0x8d hop hpc] at hrun
  norm_num [Instruction.from_opcode, Instruction.clock, Instruction.affects_status_negative,
    Instruction.affects_status_zero] at hrun
  cases hq : Cpu.fetch_operand
      { c with registers.program_counter := c.registers.program_counter + 1 }
      Addressing.Absolute with
  | none => rw [hq] at hrun; exact absurd hrun (by simp)
  | some pr =>
    obtain ⟨op, c1⟩ := pr
    obtain ⟨lo, hi, hr1, hr2, hpc2, hov, hc1⟩ := fetch_operand_abs_inv _ _ _ hq
    dsimp only at hr1 hr2 hpc2
    rw [hq] at hrun
    subst hov
    subst hc1
    dsimp only at hrun
    cases hw : Cpu.write
        { c with registers.program_counter := c.registers.program_counter + 1 + 2 }
        (lo + (hi <<< 8))
        c.registers.accumulator with
    | none => rw [hw] at hrun; exact absurd hrun (by simp)
    | some c2 =>
      rw [hw] at hrun
      dsimp only at hrun
      simp only [Option.some.injEq, Prod.mk.injEq] at hrun
      obtain ⟨h1, h2⟩ := hrun
      exact ⟨lo, hi, c2, hr1, hr2, by omega, hw, h1.symm, h2.symm⟩

theorem run_inv_lda_absx (c c' : Cpu) (n : Nat)
    (hop : c.read c.registers.program_counter = Option.some 0xbd)
    (hrun : c.run = Option.some (c', n)) :
    ∃ lo hi m, c.read (c.registers.program_counter + 1) = Option.some lo ∧
      c.read (c.registers.program_counter + 2) = Option.some hi ∧
      c.registers.program_counter + 3 ≤ 0xffff ∧
      c.read ((lo + (hi <<< 8) + c.registers.index_x) % 0x10000) = Option.some m ∧
      c' = { c with
        registers.accumulator := m,
        registers.program_counter := c.registers.program_counter + 3,
        registers.status.negative := (m >>> 7 == 1),
        registers.status.zero := (m == 0) } ∧
      n = (if (lo + (hi <<< 8)) >>> 8 =
            ((lo + (hi <<< 8) + c.registers.index_x) % 0x10000) >>> 8 then 4 else 5) := by
  obtain ⟨p, hf⟩ := run_fetch_some c (c', n) hrun
  have hpc := fetch_pc_bound c p hf
  unfold Cpu.run at hrun
  rw [fetch_eq c 0xbd hop hpc] at hrun
  norm_num [Instruction.from_opcode, Instruction.clock, Instruction.affects_status_negative,
    Instruction.affects_status_zero] at hrun
  cases hq : Cpu.fetch_operand
      { c with registers.program_counter := c.registers.program_counter + 1 }
      Addressing.AbsoluteX with
  | none => rw [hq] at hrun; exact absurd hrun (by simp)
  | some pr =>
    obtain ⟨op, c1⟩ := pr
    obtain ⟨lo, hi, hr1, hr2, hpc2, hov, hc1⟩ := fetch_operand_absx_inv _ _ _ hq
    dsimp only at hr1 hr2 hpc2 hov
    rw [hq] at hrun
    subst hov
    subst hc1
    dsimp only at hrun
    cases hm : Cpu.read
        { c with registers.program_counter := c.registers.program_counter + 1 + 2 }
        ((lo + (hi <<< 8) + c.registers.index_x) % 0x10000) with
    | none => rw [hm] at hrun; exact absurd hrun (by simp)
    | some m =>
      rw [hm] at hrun
      dsimp only at hrun
      simp only [Option.some.injEq, Prod.mk.injEq] at hrun
      obtain ⟨h1, h2⟩ := hrun
      refine ⟨lo, hi, m, hr1, hr2, by omega, hm, h1.symm, ?_⟩
      by_cases hcr : (lo + (hi <<< 8)) >>> 8 =
          ((lo + (hi <<< 8) + c.registers.index_x) % 0x10000) >>> 8
      · rw [if_pos hcr]
        rw [← h2]
        simp [hcr]
      · rw [if_neg hcr]
        rw [← h2]
        simp [hcr]

theorem run_inv_bne (c c' : Cpu) (n : Nat)
    (hop : c.read c.registers.program_counter = Option.some 0xd0)
    (hrun : c.run = Option.some (c', n)) :
    ∃ b, c.read (c.registers.program_counter + 1) = Option.some b ∧
      c.registers.program_counter + 2 ≤ 0xffff ∧
      b ≠ 0x80 ∧
      (c.registers.status.zero = true →
        c' = { c with registers.program_counter := c.registers.program_counter + 2 } ∧
        n = 2) ∧
      (c.registers.status.zero = false →
        c' = { c with registers.program_counter := relTarget (c.registers.program_counter + 2) b } ∧
        n = (if (c.registers.program_counter + 2) >>> 8 =
              (relTarget (c.registers.program_counter + 2) b) >>> 8 then 3 else 4)) := by
  obtain ⟨p, hf⟩ := run_fetch_some c (c', n) hrun
  have hpc := fetch_pc_bound c p hf
  unfold Cpu.run at hrun
  rw [fetch_eq c 0xd0 hop hpc] at hrun
  norm_num [Instruction.from_opcode, Instruction.clock, Instruction.affects_status_negative,
    Instruction.affects_status_zero] at hrun
  cases hq : Cpu.fetch_operand
      { c with registers.program_counter := c.registers.program_counter + 1 }
      Addressing.Relative with
  | none => rw [hq] at hrun; exact absurd hrun (by simp)
  | some pr =>
    obtain ⟨op, c1⟩ := pr
    obtain ⟨b, hr, hpc2, hb, hov, hc1⟩ := fetch_operand_rel_inv _ _ _ hq
    dsimp only at hr hpc2 hov
    rw [hq] at hrun
    subst hov
    subst hc1
    dsimp only at hrun
    cases hz : c.registers.status.zero with
    | true =>
      rw [hz] at hrun
      simp only [Bool.true_eq_false, if_false, Option.some.injEq, Prod.mk.injEq] at hrun
      obtain ⟨h1, h2⟩ := hrun
      exact ⟨b, hr, by omega, hb, fun _ => ⟨h1.symm, h2.symm⟩,
        fun hzf => absurd hzf (by simp)⟩
    | false =>
      rw [hz] at hrun
      simp only [if_true, Option.some.injEq, Prod.mk.injEq] at hrun
      obtain ⟨h1, h2⟩ := hrun
      refine ⟨b, hr, by omega, hb, fun hzt => absurd hzt (by simp), fun _ => ⟨h1.symm, ?_⟩⟩
      by_cases hcr : (c.registers.program_counter + 2) >>> 8 =
            (relTarget (c.registers.program_counter + 2) b) >>> 8
      · rw [if_pos hcr]
        rw [← h2]
        simp [hcr]
      · rw [if_neg hcr]
        rw [← h2]
        simp [hcr]

theorem run_opcode_decodes (c : Cpu) (q : Cpu × Nat) (h : c.run = Option.some q) :
    ∃ op i, c.read c.registers.program_counter = Option.some op ∧
      Instruction.from_opcode op = Option.some i := by
  unfold Cpu.run at h
  cases hf : c.fetch with
  | none => rw [hf] at h; exact absurd h (by simp)
  | some p =>
    obtain ⟨op, hr, hpc, hp⟩ := fetch_inv c p hf
    rw [hf] at h
    subst hp
    dsimp only at h
    cases hd : Instruction.from_opcode op with
    | none => rw [hd] at h; exact absurd h (by simp)
    | some i => exact ⟨op, i, hr, hd⟩

theorem from_opcode_cases (op : Nat) (i : Instruction)
    (h : Instruction.from_opcode op = Option.some i) :
    op = 0x4c ∨ op = 0x78 ∨ op = 0x88 ∨ op = 0x8d ∨ op = 0x9a ∨ op = 0xa0 ∨
    op = 0xa2 ∨ op = 0xa9 ∨ op = 0xbd ∨ op = 0xd0 ∨ op = 0xe8 := by
  by_contra hcon
  push_neg at hcon
  obtain ⟨n1, n2, n3, n4, n5, n6, n7, n8, n9, n10, n11⟩ := hcon
  unfold Instruction.from_opcode at h
  rw [if_neg n1, if_neg n2, if_neg n3, if_neg n4, if_neg n5, if_neg n6, if_neg n7, if_neg n8,
    if_neg n9, if_neg n10, if_neg n11] at h
  exact absurd h (by simp)

theorem run_stack_pointer (c c' : Cpu) (n op : Nat)
    (hop : c.read c.registers.program_counter = Option.some op)
    (hrun : c.run = Option.some (c', n)) :
    (op = 0x9a ∧ c'.registers.stack_pointer = c.registers.index_x) ∨
    c'.registers.stack_pointer = c.registers.stack_pointer := by
  obtain ⟨op2, i, hop2, hd⟩ := run_opcode_decodes c (c', n) hrun
  have hoe : op2 = op := by
    rw [hop] at hop2
    exact (Option.some.inj hop2).symm
  rw [hoe] at hd
  rcases from_opcode_cases op i hd with rfl | rfl | rfl | rfl | rfl | rfl | rfl | rfl | rfl | rfl | rfl
  · obtain ⟨lo, hi, _, _, _, h1, _⟩ := run_inv_jmp c c' n hop hrun
    subst h1
    exact Or.inr rfl
  · obtain ⟨_, h1, _⟩ := run_inv_sei c c' n hop hrun
    subst h1
    exact Or.inr rfl
  · obtain ⟨_, h1, _⟩ := run_inv_dey c c' n hop hrun
    subst h1
    exact Or.inr rfl
  · obtain ⟨lo, hi, c2, _, _, _, hw, h1, _⟩ := run_inv_sta c c' n hop hrun
    subst h1
    rw [(write_inv _ _ _ _ hw).1]
    exact Or.inr rfl
  · obtain ⟨_, h1, _⟩ := run_inv_txs c c' n hop hrun
    subst h1
    exact Or.inl ⟨rfl, rfl⟩
  · obtain ⟨v, _, _, h1, _⟩ := run_inv_ldy_imm c c' n hop hrun
    subst h1
    exact Or.inr rfl
  · obtain ⟨v, _, _, h1, _⟩ := run_inv_ldx_imm c c' n hop hrun
    subst h1
    exact Or.inr rfl
  · obtain ⟨v, _, _, h1, _⟩ := run_inv_lda_imm c c' n hop hrun
    subst h1
    exact Or.inr rfl
  · obtain ⟨lo, hi, m, _, _, _, _, h1, _⟩ := run_inv_lda_absx c c' n hop hrun
    subst h1
    exact Or.inr rfl
  · obtain ⟨b, _, _, _, ht, hf⟩ := run_inv_bne c c' n hop hrun
    cases hz : c.registers.status.zero with
    | true =>
      obtain ⟨h1, _⟩ := ht hz
      subst h1
      exact Or.inr rfl
    | false =>
      obtain ⟨h1, _⟩ := hf hz
      subst h1
      exact Or.inr rfl
  · obtain ⟨_, h1, _⟩ := run_inv_inx c c' n hop hrun
    subst h1
    exact Or.inr rfl

theorem resetProbe_resets : resetProbe.reset = Option.some resetProbe := by
  have h1 : resetProbe.read 0xfffc = Option.some 0 := by
    unfold Cpu.read resetProbe
    rw [if_neg (by omega), if_pos (by omega)]
    exact replicate_get_some 0x7ffe 0x7ffc 0 (by omega)
  have h2 : resetProbe.read 0xfffd = Option.some 0 := by
    unfold Cpu.read resetProbe
    rw [if_neg (by omega), if_pos (by omega)]
    exact replicate_get_some 0x7ffe 0x7ffd 0 (by omega)
  have hw : resetProbe.read_word 0xfffc = Option.some 0 := by
    unfold Cpu.read_word
    rw [h1]
    simp [h2]
  unfold Cpu.reset
  dsimp only
  rw [show Cpu.read_word { resetProbe with registers := Registers.power_on } 0xfffc =
    Option.some 0 from hw]
  rfl

/-- C1: decoding is bit-exact on the eleven documented opcodes and every
other byte value decodes to the unimplemented-opcode fault. -/
theorem decode_table_exact :
    (Instruction.from_opcode 0x4c = Option.some ⟨Kind.JMP, Addressing.Absolute⟩ ∧
     Instruction.from_opcode 0x78 = Option.some ⟨Kind.SEI, Addressing.Implied⟩ ∧
     Instruction.from_opcode 0x88 = Option.some ⟨Kind.DEY, Addressing.Implied⟩ ∧
     Instruction.from_opcode 0x8d = Option.some ⟨Kind.STA, Addressing.Absolute⟩ ∧
     Instruction.from_opcode 0x9a = Option.some ⟨Kind.TXS, Addressing.Implied⟩ ∧
     Instruction.from_opcode 0xa0 = Option.some ⟨Kind.LDY, Addressing.Immediate⟩ ∧
     Instruction.from_opcode 0xa2 = Option.some ⟨Kind.LDX, Addressing.Immediate⟩ ∧
     Instruction.from_opcode 0xa9 = Option.some ⟨Kind.LDA, Addressing.Immediate⟩ ∧
     Instruction.from_opcode 0xbd = Option.some ⟨Kind.LDA, Addressing.AbsoluteX⟩ ∧
     Instruction.from_opcode 0xd0 = Option.some ⟨Kind.BNE, Addressing.Relative⟩ ∧
     Instruction.from_opcode 0xe8 = Option.some ⟨Kind.INX, Addressing.Implied⟩) ∧
    (∀ op, op < 256 → op ∉ opcodeTable → Instruction.from_opcode op = Option.none) := by
  decide

theorem decode_table_exact_witness : Instruction.from_opcode 0x00 = Option.none :=
  decode_table_exact.2 0x00 (by norm_num) (by decide)

/-- C2: a BNE step branches exactly when the zero flag is clear, to the
resolved relative target, and costs 2 cycles when not taken, 3 when taken
within the page, 4 when taken across a page boundary. -/
theorem bne_semantics (c c' : Cpu) (n : Nat)
    (hop : c.read c.registers.program_counter = Option.some 0xd0)
    (hrun : c.run = Option.some (c', n)) :
    ∃ b, c.read (c.registers.program_counter + 1) = Option.some b ∧ b ≠ 0x80 ∧
      (c.registers.status.zero = true →
        c' = { c with registers.program_counter := c.registers.program_counter + 2 } ∧ n = 2) ∧
      (c.registers.status.zero = false →
        c' = { c with registers.program_counter := relTarget (c.registers.program_counter + 2) b } ∧
        ((c.registers.program_counter + 2) >>> 8 =
            (relTarget (c.registers.program_counter + 2) b) >>> 8 → n = 3) ∧
        ((c.registers.program_counter + 2) >>> 8 ≠
            (relTarget (c.registers.program_counter + 2) b) >>> 8 → n = 4)) := by
  obtain ⟨b, hr, hpc, hb, ht, hf⟩ := run_inv_bne c c' n hop hrun
  refine ⟨b, hr, hb, ht, fun hz => ?_⟩
  obtain ⟨h1, h2⟩ := hf hz
  refine ⟨h1, fun hcr => ?_, fun hcr => ?_⟩
  · rw [h2, if_pos hcr]
  · rw [h2, if_neg hcr]

theorem bne_semantics_witness :
    ∃ b, bneProbe.read (bneProbe.registers.program_counter + 1) = Option.some b ∧ b ≠ 0x80 := by
  obtain ⟨b, hr, hb, _⟩ := bne_semantics bneProbe
    { bneProbe with registers.program_counter := 7 } 3 (by decide) (by decide)
  exact ⟨b, hr, hb⟩

/-- C3: AbsoluteX consumes two little-endian base bytes, adds X modulo
2^16, flags a page crossing exactly when the high byte changes, and a
0xBD load costs 4 cycles without crossing (base 0x0100, X = 0x56) and 5
with (base 0x01FF, X = 0x56), loading into the accumulator either way. -/
theorem absolute_x_resolution :
    (∀ (c : Cpu) (lo hi : Nat),
      c.read c.registers.program_counter = Option.some lo →
      c.read (c.registers.program_counter + 1) = Option.some hi →
      c.registers.program_counter + 2 ≤ 0xffff →
      c.fetch_operand Addressing.AbsoluteX =
        Option.some (Operand.address ((lo + (hi <<< 8) + c.registers.index_x) % 0x10000)
          (decide ((lo + (hi <<< 8)) >>> 8 ≠
            ((lo + (hi <<< 8) + c.registers.index_x) % 0x10000) >>> 8)),
          { c with registers.program_counter := c.registers.program_counter + 2 })) ∧
    (Cpu.run c3NoCrossProbe).map (fun p => (p.1.registers.accumulator, p.2)) =
      Option.some (0xff, 4) ∧
    (Cpu.run c3CrossProbe).map (fun p => (p.1.registers.accumulator, p.2)) =
      Option.some (0x45, 5) := by
  refine ⟨?_, by decide, by decide⟩
  intro c lo hi h1 h2 hpc
  unfold Cpu.fetch_operand
  rw [fetch_word_eq c lo hi h1 h2 hpc]

theorem absolute_x_resolution_witness :
    Cpu.fetch_operand { c3NoCrossProbe with registers.program_counter := 0x8001 }
      Addressing.AbsoluteX =
      Option.some (Operand.address 0x156 false,
        { c3NoCrossProbe with registers.program_counter := 0x8003 }) := by
  have h := absolute_x_resolution.1 { c3NoCrossProbe with registers.program_counter := 0x8001 }
    0x00 0x01 (by decide) (by decide) (by norm_num)
  rw [h]
  decide

/-- C4: the flag-producing operations (LDA, LDX, LDY, TXS, INX, DEY) set
negative to bit 7 of the result byte (the value left in the written
register) and zero to whether it is zero; STA, JMP, BNE and SEI leave both
flags unchanged.  Stated per opcode, which enumerates every way each
operation can execute. -/
theorem flag_updates :
    (∀ (c c' : Cpu) (n : Nat), c.read c.registers.program_counter = Option.some 0xa9 →
      c.run = Option.some (c', n) →
      c'.registers.status.negative = (c'.registers.accumulator >>> 7 == 1) ∧
      c'.registers.status.zero = (c'.registers.accumulator == 0)) ∧
    (∀ (c c' : Cpu) (n : Nat), c.read c.registers.program_counter = Option.some 0xbd →
      c.run = Option.some (c', n) →
      c'.registers.status.negative = (c'.registers.accumulator >>> 7 == 1) ∧
      c'.registers.status.zero = (c'.registers.accumulator == 0)) ∧
    (∀ (c c' : Cpu) (n : Nat), c.read c.registers.program_counter = Option.some 0xa2 →
      c.run = Option.some (c', n) →
      c'.registers.status.negative = (c'.registers.index_x >>> 7 == 1) ∧
      c'.registers.status.zero = (c'.registers.index_x == 0)) ∧
    (∀ (c c' : Cpu) (n : Nat), c.read c.registers.program_counter = Option.some 0xa0 →
      c.run = Option.some (c', n) →
      c'.registers.status.negative = (c'.registers.index_y >>> 7 == 1) ∧
      c'.registers.status.zero = (c'.registers.index_y == 0)) ∧
    (∀ (c c' : Cpu) (n : Nat), c.read c.registers.program_counter = Option.some 0x9a →
      c.run = Option.some (c', n) →
      c'.registers.status.negative = (c'.registers.stack_pointer >>> 7 == 1) ∧
      c'.registers.status.zero = (c'.registers.stack_pointer == 0)) ∧
    (∀ (c c' : Cpu) (n : Nat), c.read c.registers.program_counter = Option.some 0xe8 →
      c.run = Option.some (c', n) →
      c'.registers.status.negative = (c'.registers.index_x >>> 7 == 1) ∧
      c'.registers.status.zero = (c'.registers.index_x == 0)) ∧
    (∀ (c c' : Cpu) (n : Nat), c.read c.registers.program_counter = Option.some 0x88 →
      c.run = Option.some (c', n) →
      c'.registers.status.negative = (c'.registers.index_y >>> 7 == 1) ∧
      c'.registers.status.zero = (c'.registers.index_y == 0)) ∧
    (∀ (c c' : Cpu) (n : Nat), c.read c.registers.program_counter = Option.some 0x8d →
      c.run = Option.some (c', n) →
      c'.registers.status.negative = c.registers.status.negative ∧
      c'.registers.status.zero = c.registers.status.zero) ∧
    (∀ (c c' : Cpu) (n : Nat), c.read c.registers.program_counter = Option.some 0x4c →
      c.run = Option.some (c', n) →
      c'.registers.status.negative = c.registers.status.negative ∧
      c'.registers.status.zero = c.registers.status.zero) ∧
    (∀ (c c' : Cpu) (n : Nat), c.read c.registers.program_counter = Option.some 0xd0 →
      c.run = Option.some (c', n) →
      c'.registers.status.negative = c.registers.status.negative ∧
      c'.registers.status.zero = c.registers.status.zero) ∧
    (∀ (c c' : Cpu) (n : Nat), c.read c.registers.program_counter = Option.some 0x78 →
      c.run = Option.some (c', n) →
      c'.registers.status.negative = c.registers.status.negative ∧
      c'.registers.status.zero = c.registers.status.zero) := by
  refine ⟨?_, ?_, ?_, ?_, ?_, ?_, ?_, ?_, ?_, ?_, ?_⟩
  · intro c c' n hop hrun
    obtain ⟨v, _, _, h1, _⟩ := run_inv_lda_imm c c' n hop hrun
    subst h1
    exact ⟨rfl, rfl⟩
  · intro c c' n hop hrun
    obtain ⟨lo, hi, m, _, _, _, _, h1, _⟩ := run_inv_lda_absx c c' n hop hrun
    subst h1
    exact ⟨rfl, rfl⟩
  · intro c c' n hop hrun
    obtain ⟨v, _, _, h1, _⟩ := run_inv_ldx_imm c c' n hop hrun
    subst h1
    exact ⟨rfl, rfl⟩
  · intro c c' n hop hrun
    obtain ⟨v, _, _, h1, _⟩ := run_inv_ldy_imm c c' n hop hrun
    subst h1
    exact ⟨rfl, rfl⟩
  · intro c c' n hop hrun
    obtain ⟨_, h1, _⟩ := run_inv_txs c c' n hop hrun
    subst h1
    exact ⟨rfl, rfl⟩
  · intro c c' n hop hrun
    obtain ⟨_, h1, _⟩ := run_inv_inx c c' n hop hrun
    subst h1
    exact ⟨rfl, rfl⟩
  · intro c c' n hop hrun
    obtain ⟨_, h1, _⟩ := run_inv_dey c c' n hop hrun
    subst h1
    exact ⟨rfl, rfl⟩
  · intro c c' n hop hrun
    obtain ⟨lo, hi, c2, _, _, _, hw, h1, _⟩ := run_inv_sta c c' n hop hrun
    subst h1
    rw [(write_inv _ _ _ _ hw).1]
    exact ⟨rfl, rfl⟩
  · intro c c' n hop hrun
    obtain ⟨lo, hi, _, _, _, h1, _⟩ := run_inv_jmp c c' n hop hrun
    subst h1
    exact ⟨rfl, rfl⟩
  · intro c c' n hop hrun
    obtain ⟨b, _, _, _, ht, hf⟩ := run_inv_bne c c' n hop hrun
    cases hz : c.registers.status.zero with
    | true =>
      obtain ⟨h1, _⟩ := ht hz
      subst h1
      exact ⟨rfl, hz⟩
    | false =>
      obtain ⟨h1, _⟩ := hf hz
      subst h1
      exact ⟨rfl, hz⟩
  · intro c c' n hop hrun
    obtain ⟨_, h1, _⟩ := run_inv_sei c c' n hop hrun
    subst h1
    exact ⟨rfl, rfl⟩

theorem flag_updates_witness :
    ldaProbeAfter.registers.status.negative = (ldaProbeAfter.registers.accumulator >>> 7 == 1) ∧
    ldaProbeAfter.registers.status.zero = (ldaProbeAfter.registers.accumulator == 0) :=
  flag_updates.1 ldaProbe ldaProbeAfter 2 (by decide) (by decide)

/-- C5: INX on X = 0xFF wraps to 0 with zero set, negative clear; DEY on
Y = 0 wraps to 0xFF with negative set, zero clear. -/
theorem wraparound_inx_dey :
    (Cpu.run inxWrapProbe).map (fun p =>
      (p.1.registers.index_x, p.1.registers.status.negative, p.1.registers.status.zero)) =
      Option.some (0x00, false, true) ∧
    (Cpu.run deyWrapProbe).map (fun p =>
      (p.1.registers.index_y, p.1.registers.status.negative, p.1.registers.status.zero)) =
      Option.some (0xff, true, false) := by
  decide

/-- C6 counterexample: a read of I/O-region address 0x2000 faults (returns
`none`, the model of the `Read not implemented!` panic), contradicting the
claim that reads of 0x2000-0x2007 are absorbed by the no-op stub. -/
theorem io_read_faults_counterexample : Cpu.read busProbe 0x2000 = Option.none := by decide

/-- C6 amended: reads fault everywhere outside RAM and ROM (including the
I/O region); writes fault everywhere outside RAM and the I/O region
(including all of ROM); writes to 0x2000-0x2007 are absorbed as no-ops. -/
theorem bus_fault_map (c : Cpu) (addr v : Nat) :
    (0x0800 ≤ addr → addr < 0x8000 → c.read addr = Option.none) ∧
    (0x0800 ≤ addr → addr ≤ 0xffff → ¬ (0x2000 ≤ addr ∧ addr ≤ 0x2007) →
      c.write addr v = Option.none) ∧
    (0x8000 ≤ addr → addr ≤ 0xffff → c.write addr v = Option.none) ∧
    (0x2000 ≤ addr → addr ≤ 0x2007 → c.write addr v = Option.some c) := by
  refine ⟨fun h1 h2 => ?_, fun h1 h2 h3 => ?_, fun h1 h2 => ?_, fun h1 h2 => ?_⟩
  · unfold Cpu.read
    rw [if_neg (by omega)]
    rw [if_neg (by omega)]
  · unfold Cpu.write
    rw [if_neg (by omega)]
    rw [if_neg (by omega)]
  · unfold Cpu.write
    rw [if_neg (by omega)]
    rw [if_neg (by omega)]
  · unfold Cpu.write
    rw [if_neg (by omega)]
    rw [if_pos (by omega)]

theorem bus_fault_map_witness :
    busProbe.read 0x2003 = Option.none ∧
    busProbe.write 0x9000 0x12 = Option.none ∧
    busProbe.write 0x2003 0x12 = Option.some busProbe :=
  ⟨(bus_fault_map busProbe 0x2003 0x12).1 (by norm_num) (by norm_num),
   (bus_fault_map busProbe 0x9000 0x12).2.2.1 (by norm_num) (by norm_num),
   (bus_fault_map busProbe 0x2003 0x12).2.2.2 (by norm_num) (by norm_num)⟩

/-- C7: reset restores every register to its power-on default and loads
the program counter from the little-endian word at 0xFFFC/0xFFFD;
resetting again reproduces the same state, so reset is idempotent. -/
theorem reset_defaults_idempotent (c c' : Cpu) (h : c.reset = Option.some c') :
    c'.registers.accumulator = 0 ∧ c'.registers.index_x = 0 ∧ c'.registers.index_y = 0 ∧
    c'.registers.stack_pointer = 0 ∧ c'.registers.status = Status.power_on ∧
    c.read_word 0xfffc = Option.some c'.registers.program_counter ∧
    c'.reset = Option.some c' := by
  unfold Cpu.reset at h
  dsimp only at h
  cases hw : Cpu.read_word { c with registers := Registers.power_on } 0xfffc with
  | none => rw [hw] at h; exact absurd h (by simp)
  | some pcv =>
    rw [hw] at h
    dsimp only at h
    injection h with h'
    subst h'
    refine ⟨rfl, rfl, rfl, rfl, rfl, hw, ?_⟩
    unfold Cpu.reset
    dsimp only
    rw [hw]

theorem reset_defaults_idempotent_witness :
    resetProbe.registers.accumulator = 0 ∧ resetProbe.registers.status = Status.power_on ∧
    resetProbe.reset = Option.some resetProbe := by
  obtain ⟨ha, _, _, _, hs, _, hid⟩ :=
    reset_defaults_idempotent resetProbe resetProbe resetProbe_resets
  exact ⟨ha, hs, hid⟩

/-- C8: at program counter 0xFFFF the byte read itself succeeds, but the
unchecked `pc += 1` of `fetch` and the unchecked `addr + 1` of `read_word`
overflow the 16-bit range and fault instead of wrapping to 0x0000. -/
theorem fetch_overflow_at_top :
    Cpu.read pageTopProbe 0xffff = Option.some 0 ∧
    Cpu.fetch pageTopProbe = Option.none ∧
    Cpu.read_word pageTopProbe 0xffff = Option.none := by
  have hr : Cpu.read pageTopProbe 0xffff = Option.some 0 := by
    unfold Cpu.read pageTopProbe
    rw [if_neg (by omega), if_pos (by omega)]
    exact replicate_get_some 0x8000 0x7fff 0 (by omega)
  refine ⟨hr, ?_, ?_⟩
  · unfold Cpu.fetch
    have hpc : pageTopProbe.registers.program_counter = 0xffff := rfl
    rw [hpc, hr]
    simp
  · unfold Cpu.read_word
    rw [hr]
    simp

/-- C9 counterexample: no implemented opcode is a NOP.  For every byte
value, either decoding faults or running the decoded instruction on the
`nopProbe` state observably changes the register file beyond advancing
past the opcode byte; so the implemented operation set contains no
operation with NOP (no-effect) semantics, refuting the claim that NOP is
part of the currently implemented set. -/
theorem no_nop_counterexample : c9NoNopCheck = true := by decide

/-- C9 amended: the implemented operation set is exactly LDA, LDX, LDY,
STA, TXS, DEY, INX, JMP, BNE, SEI - NOP is absent (it is commented out in
the source), and no implemented opcode executes without observable
effect. -/
theorem implemented_kinds_no_nop : c9KindsCheck = true ∧ c9NoNopCheck = true := by
  constructor
  · decide
  · decide

/-- C10: the stack pointer stays an 8-bit value in every reachable state:
it is zero after construction and after reset; a step preserves
stack_pointer <= 0xFF (TXS copies the 8-bit X register, everything else
leaves it alone); and any step whose opcode is not TXS (0x9A) leaves the
stack pointer unchanged. -/
theorem stack_pointer_invariant :
    (∀ ram, (Cpu.new ram).registers.stack_pointer = 0) ∧
    (∀ c c' : Cpu, c.reset = Option.some c' → c'.registers.stack_pointer = 0) ∧
    (∀ (c c' : Cpu) (n : Nat), c.registers.stack_pointer ≤ 0xff →
      c.registers.index_x ≤ 0xff → c.run = Option.some (c', n) →
      c'.registers.stack_pointer ≤ 0xff) ∧
    (∀ (c c' : Cpu) (n op : Nat), c.read c.registers.program_counter = Option.some op →
      op ≠ 0x9a → c.run = Option.some (c', n) →
      c'.registers.stack_pointer = c.registers.stack_pointer) := by
  refine ⟨fun ram => rfl, ?_, ?_, ?_⟩
  · intro c c' h
    unfold Cpu.reset at h
    dsimp only at h
    cases hw : Cpu.read_word { c with registers := Registers.power_on } 0xfffc with
    | none => rw [hw] at h; exact absurd h (by simp)
    | some pcv =>
      rw [hw] at h
      dsimp only at h
      injection h with h'
      subst h'
      rfl
  · intro c c' n hsp hx hrun
    obtain ⟨op, i, hop, _⟩ := run_opcode_decodes c (c', n) hrun
    rcases run_stack_pointer c c' n op hop hrun with ⟨_, h⟩ | h
    · rw [h]; exact hx
    · rw [h]; exact hsp
  · intro c c' n op hop hne hrun
    rcases run_stack_pointer c c' n op hop hrun with ⟨he, _⟩ | h
    · exact absurd he hne
    · exact h

theorem stack_pointer_invariant_witness :
    ldaProbeAfter.registers.stack_pointer = ldaProbe.registers.stack_pointer :=
  stack_pointer_invariant.2.2.2 ldaProbe ldaProbeAfter 2 0xa9 (by decide) (by norm_num)
    (by decide)
